import Mathlib

/-!
Verification of the agnostic-orderbook matching core against its
natural-language specification.

The development shallowly embeds the three source files
(`program/src/orderbook.rs`, `program/src/utils.rs`,
`program/src/processor/consume_events.rs`).  Machine integers (`u64`,
`u128`) are modelled as `Nat` with explicit reductions modulo `2 ^ 64`
wherever the Rust code can wrap (release-profile two's-complement
semantics); a `u64` division by zero, which panics in Rust, is modelled
by a dedicated `divByZero` outcome, and `Option::unwrap` /
`unreachable!` panics by a `panicked` outcome.

The crit-bit slab (`critbit.rs`) and the event queue (`state.rs`) are
not part of the provided sources; the operations the matcher relies on
are modelled from the specification (sections 4.2 and 4.3) and are
marked `Modelled from the spec:` in their doc comments.
-/

namespace AOB

/-- Two to the sixty-fourth power: the modulus of `u64` arithmetic. -/
def U64 : Nat := 2 ^ 64

/-- Wrapping `u64` subtraction `a - b` (Rust release-profile semantics). -/
def sub64 (a b : Nat) : Nat := (U64 + a % U64 - b % U64) % U64

/-- Wrapping `u64` multiplication (Rust release-profile semantics). -/
def mul64 (a b : Nat) : Nat := (a * b) % U64

/-- From `utils.rs`: `a` is fp0, `b` is fp32, result is `a*b` fp0:
`(((a as u128) * (b as u128)) >> 32) as u64`. -/
def fp32_mul (a b : Nat) : Nat := ((a * b) / 2 ^ 32) % U64

/-- From `utils.rs`: `a` is fp0, `b` is fp32, result is `a/b` fp0:
`(((a as u128) << 32) / (b as u128)) as u64`.  Meaningful only for
`0 < b`; the Rust code panics on `b = 0` (see `fp32_div?`). -/
def fp32_div (a b : Nat) : Nat := ((a * 2 ^ 32) / b) % U64

/-- `fp32_div` with the Rust division-by-zero panic made explicit:
`none` exactly when the divisor is zero. -/
def fp32_div? (a b : Nat) : Option Nat :=
  if b = 0 then none else some (fp32_div a b)

/-- From `state.rs` via the spec: the side of an order. -/
inductive Side
  | Bid
  | Ask
deriving DecidableEq, Repr

/-- `opposite(Bid) = Ask` and vice versa. -/
def Side.opposite : Side → Side
  | .Bid => .Ask
  | .Ask => .Bid

/-- From `state.rs` via the spec: the self-trade policies. -/
inductive SelfTradeBehavior
  | DecrementTake
  | CancelProvide
  | AbortTransaction
deriving DecidableEq, Repr

/-- The domain errors of the program (`error.rs`, via the spec §7). -/
inductive AoError
  | WouldSelfTrade
  | EventQueueFull
  | SlabOutOfSpace
  | NoOperations
  | AlreadyInitialized
deriving DecidableEq, Repr

/-- Outcome classification for the embedded Rust code: a returned
domain error, a division-by-zero panic, an `unwrap`/`unreachable!`
panic, or exhaustion of the structural fuel of the loop encoding (the
fuel chosen by `new_order` is provably sufficient, so `fuelOut` is
unreachable from `new_order`). -/
inductive ExecErr
  | ao (e : AoError)
  | divByZero
  | panicked
  | fuelOut
deriving DecidableEq, Repr

/-- From `critbit.rs` via the spec §3: a resting order.  The
`callback_info` byte string is opaque to the matcher (it is only
compared for equality and copied), so it is modelled by a `Nat` tag. -/
structure LeafNode where
  order_id : Nat
  asset_quantity : Nat
  callback_info : Nat
deriving DecidableEq, Repr

/-- The Q32.32 price packed in the high 64 bits of the 128-bit id. -/
def LeafNode.price (l : LeafNode) : Nat := l.order_id / 2 ^ 64

/-- Modelled from the spec: the slab (`critbit.rs`, not in the provided
sources) is a fixed-capacity container of leaves; only the leaf
multiset and the capacity are relevant to the matcher. -/
structure Slab where
  leaves : List LeafNode
  capacity : Nat
deriving DecidableEq, Repr

/-- Leaf with the greatest key, ties to the earliest (keys are unique
in well-formed slabs). -/
def findMaxLeaf : List LeafNode → Option LeafNode
  | [] => none
  | l :: ls =>
    match findMaxLeaf ls with
    | none => some l
    | some m => if l.order_id < m.order_id then some m else some l

/-- Leaf with the least key, ties to the earliest. -/
def findMinLeaf : List LeafNode → Option LeafNode
  | [] => none
  | l :: ls =>
    match findMinLeaf ls with
    | none => some l
    | some m => if m.order_id < l.order_id then some m else some l

/-- Modelled from the spec §4.2: `find_max`. -/
def Slab.findMax (s : Slab) : Option LeafNode := findMaxLeaf s.leaves

/-- Modelled from the spec §4.2: `find_min`. -/
def Slab.findMin (s : Slab) : Option LeafNode := findMinLeaf s.leaves

/-- Modelled from the spec §4.2: `remove_by_key` returns `none` when no
leaf carries the key (the matcher `unwrap`s that case). -/
def removeByKey? : List LeafNode → Nat → Option (List LeafNode)
  | [], _ => none
  | l :: ls, k =>
    if l.order_id = k then some ls
    else (removeByKey? ls k).map (fun r => l :: r)

/-- In-place quantity update of the first leaf carrying the key
(models `LeafNode::set_asset_quantity` through a slab reference). -/
def setQtyByKey : List LeafNode → Nat → Nat → List LeafNode
  | [], _, _ => []
  | l :: ls, k, q =>
    if l.order_id = k then { l with asset_quantity := q } :: ls
    else l :: setQtyByKey ls k q

/-- Modelled from the spec §4.2: `insert_leaf` fails with
`SlabOutOfSpace` when the arena cannot take one more leaf. -/
def Slab.insertLeaf (s : Slab) (l : LeafNode) : Except AoError Slab :=
  if s.capacity ≤ s.leaves.length then .error .SlabOutOfSpace
  else .ok { s with leaves := l :: s.leaves }

/-- Modelled from the spec §4.2: `remove_min` removes the extreme leaf. -/
def Slab.removeMin (s : Slab) : Option (LeafNode × Slab) :=
  match findMinLeaf s.leaves with
  | none => none
  | some m =>
    match removeByKey? s.leaves m.order_id with
    | none => none
    | some ls => some (m, { s with leaves := ls })

/-- Modelled from the spec §4.2: `remove_max` removes the extreme leaf. -/
def Slab.removeMax (s : Slab) : Option (LeafNode × Slab) :=
  match findMaxLeaf s.leaves with
  | none => none
  | some m =>
    match removeByKey? s.leaves m.order_id with
    | none => none
    | some ls => some (m, { s with leaves := ls })

/-- From `state.rs` via the spec §3: the queue events pushed by the
matcher.  The Rust code builds both variants with named fields, so
only the field names matter, not their order. -/
inductive Event
  | Fill (taker_side : Side) (maker_callback_info taker_callback_info : Nat)
      (maker_order_id : Nat) (quote_size : Nat) (asset_size : Nat)
  | Out (side : Side) (order_id : Nat) (asset_size : Nat) (callback_info : Nat)
deriving DecidableEq, Repr

/-- Modelled from the spec §4.3: the bounded FIFO event queue with its
order-id sequence counter. -/
structure EventQueue where
  events : List Event
  capacity : Nat
  seq_num : Nat
deriving DecidableEq, Repr

/-- Modelled from the spec §4.3: `push_back` appends one event and
fails when the queue is at capacity. -/
def EventQueue.pushBack (q : EventQueue) (e : Event) : Except AoError EventQueue :=
  if q.capacity ≤ q.events.length then .error .EventQueueFull
  else .ok { q with events := q.events ++ [e] }

/-- The per-side sequence mask: Asks XOR their sequence number with
`u64::MAX` (bitwise complement below `2 ^ 64`). -/
def maskedSeq : Side → Nat → Nat
  | .Bid, s => s % U64
  | .Ask, s => U64 - 1 - s % U64

/-- Modelled from the spec §4.3: `gen_order_id` composes
`(price << 64) | (seq_num XOR mask(side))`. -/
def genOrderId (limit_price : Nat) (side : Side) (seq : Nat) : Nat :=
  (limit_price % U64) * 2 ^ 64 + maskedSeq side seq

/-- From `processor/new_order.rs` via the spec §4.4: the parameters of
a `new_order` call. -/
structure Params where
  max_asset_qty : Nat
  max_quote_qty : Nat
  side : Side
  limit_price : Nat
  callback_info : Nat
  post_only : Bool
  post_allowed : Bool
  self_trade_behavior : SelfTradeBehavior
  match_limit : Nat
deriving DecidableEq, Repr

/-- From `orderbook.rs`: the summary returned by `new_order`. -/
structure OrderSummary where
  posted_order_id : Option Nat
  total_asset_qty : Nat
  total_quote_qty : Nat
deriving DecidableEq, Repr

/-- From `orderbook.rs`: `ORDER_SUMMARY_SIZE`. -/
def ORDER_SUMMARY_SIZE : Nat := 33

/-- From `orderbook.rs`: the order book holds one slab per side. -/
structure OrderBookState where
  bids : Slab
  asks : Slab
deriving DecidableEq, Repr

/-- `get_tree`: the slab of a side. -/
def OrderBookState.get_tree (b : OrderBookState) : Side → Slab
  | .Bid => b.bids
  | .Ask => b.asks

/-- `find_bbo`: best resting order of a side (`find_max` on the bid
tree, `find_min` on the ask tree). -/
def findBBO (side : Side) (s : Slab) : Option LeafNode :=
  match side with
  | .Bid => s.findMax
  | .Ask => s.findMin

/-- The state carried out of the matching loop of `new_order`:
the `crossed` flag, both remaining budgets, the (mutated) opposite
slab, and the (mutated) event queue. -/
structure LoopRes where
  crossed : Bool
  asset_qty_remaining : Nat
  quote_qty_remaining : Nat
  opp : Slab
  eq : EventQueue
deriving DecidableEq, Repr

/-- The `crossed` recomputation of `orderbook.rs` lines 111-114. -/
def computeCrossed (side : Side) (limit_price trade_price : Nat) : Bool :=
  match side with
  | .Bid => decide (trade_price ≤ limit_price)
  | .Ask => decide (limit_price ≤ trade_price)

/-- The matching loop of `OrderBookState::new_order`
(`orderbook.rs` lines 88-192), written with a structural fuel so that
it stays executable; `new_order` supplies
`match_limit + |opposite slab| + 1` units of fuel, which is enough
because every non-terminal iteration either decrements `match_limit`
or removes one opposite leaf. -/
def matchLoop (p : Params) :
    Nat → Bool → Nat → Nat → Nat → Slab → EventQueue →
    Except ExecErr LoopRes
  | 0, _, _, _, _, _, _ => .error .fuelOut
  | fuel + 1, crossed, match_limit, aRem, qRem, opp, eq =>
    if match_limit = 0 then .ok ⟨crossed, aRem, qRem, opp, eq⟩
    else
      match findBBO p.side.opposite opp with
      | none => .ok ⟨false, aRem, qRem, opp, eq⟩
      | some best =>
        let trade_price := best.price
        let crossed1 := computeCrossed p.side p.limit_price trade_price
        if p.post_only then .ok ⟨crossed1, aRem, qRem, opp, eq⟩
        else if trade_price = 0 then .error .divByZero
        else
          let asset_trade_qty :=
            min (min best.asset_quantity aRem) (fp32_div qRem trade_price)
          if asset_trade_qty = 0 then .ok ⟨crossed1, aRem, qRem, opp, eq⟩
          else if p.self_trade_behavior ≠ SelfTradeBehavior.DecrementTake
              ∧ p.callback_info = best.callback_info then
            match p.self_trade_behavior with
            | .CancelProvide =>
              let cancelled := best.asset_quantity
              let remaining := sub64 best.asset_quantity cancelled
              match eq.pushBack
                  (.Out p.side.opposite best.order_id cancelled best.callback_info) with
              | .error _ => .error (.ao .EventQueueFull)
              | .ok eq1 =>
                if remaining = 0 then
                  match removeByKey? opp.leaves best.order_id with
                  | none => .error .panicked
                  | some ls =>
                    matchLoop p fuel crossed1 match_limit aRem qRem
                      { opp with leaves := ls } eq1
                else
                  matchLoop p fuel crossed1 match_limit aRem qRem
                    { opp with leaves := setQtyByKey opp.leaves best.order_id remaining } eq1
            | .AbortTransaction => .error (.ao .WouldSelfTrade)
            | .DecrementTake => .error .panicked
          else
            let quote_maker_qty := fp32_mul asset_trade_qty trade_price
            match eq.pushBack
                (.Fill p.side best.callback_info p.callback_info best.order_id
                  quote_maker_qty asset_trade_qty) with
            | .error _ => .error (.ao .EventQueueFull)
            | .ok eq1 =>
              let newQty := sub64 best.asset_quantity asset_trade_qty
              let leaves1 := setQtyByKey opp.leaves best.order_id newQty
              if newQty = 0 then
                match removeByKey? leaves1 best.order_id with
                | none => .error .panicked
                | some ls =>
                  matchLoop p fuel crossed1 (match_limit - 1)
                    (sub64 aRem asset_trade_qty) (sub64 qRem quote_maker_qty)
                    { opp with leaves := ls } eq1
              else
                matchLoop p fuel crossed1 (match_limit - 1)
                  (sub64 aRem asset_trade_qty) (sub64 qRem quote_maker_qty)
                  { opp with leaves := leaves1 } eq1

/-- The resting-insertion step of `new_order`
(`orderbook.rs` lines 214-235): try to insert; on `SlabOutOfSpace`
evict the least aggressive same-side order (`remove_min` for Bids,
`remove_max` for Asks), emit one `Out` event — whose side tag is
hard-coded to `Bid` in the source — and retry. -/
def postResting (side : Side) (tree : Slab) (new_leaf : LeafNode)
    (eq : EventQueue) : Except ExecErr (Slab × EventQueue) :=
  match tree.insertLeaf new_leaf with
  | .ok tree1 => .ok (tree1, eq)
  | .error e =>
    if e = AoError.SlabOutOfSpace then
      match (match side with
             | Side.Bid => tree.removeMin
             | Side.Ask => tree.removeMax) with
      | none => .error .panicked
      | some (evicted, tree1) =>
        match eq.pushBack
            (.Out Side.Bid evicted.order_id evicted.asset_quantity
              evicted.callback_info) with
        | .error _ => .error (.ao .EventQueueFull)
        | .ok eq1 =>
          match tree1.insertLeaf new_leaf with
          | .ok tree2 => .ok (tree2, eq1)
          | .error _ => .error .panicked
    else .error .panicked

/-- The fuel `new_order` hands to `matchLoop`. -/
def loopFuel (p : Params) (opp : Slab) : Nat :=
  p.match_limit + opp.leaves.length + 1

/-- `OrderBookState::new_order` (`orderbook.rs` lines 67-243). -/
def new_order (p : Params) (book : OrderBookState) (eq : EventQueue) :
    Except ExecErr (OrderSummary × OrderBookState × EventQueue) :=
  let opp0 := book.get_tree p.side.opposite
  match matchLoop p (loopFuel p opp0) true p.match_limit
      p.max_asset_qty p.max_quote_qty opp0 eq with
  | .error e => .error e
  | .ok r =>
    let book1 := match p.side.opposite with
      | Side.Bid => { book with bids := r.opp }
      | Side.Ask => { book with asks := r.opp }
    if r.crossed || !p.post_allowed then
      .ok (⟨none, sub64 p.max_asset_qty r.asset_qty_remaining,
            sub64 p.max_quote_qty r.quote_qty_remaining⟩, book1, r.eq)
    else
      match (match p.side with
             | Side.Bid =>
               (fp32_div? r.quote_qty_remaining p.limit_price).map
                 (fun d => min d r.asset_qty_remaining)
             | Side.Ask => some r.asset_qty_remaining) with
      | none => .error .divByZero
      | some asset_qty_to_post =>
        let new_leaf_order_id := genOrderId p.limit_price p.side r.eq.seq_num
        let eq1 : EventQueue := { r.eq with seq_num := (r.eq.seq_num + 1) % U64 }
        let new_leaf : LeafNode := ⟨new_leaf_order_id, asset_qty_to_post, p.callback_info⟩
        match postResting p.side (book1.get_tree p.side) new_leaf eq1 with
        | .error e => .error e
        | .ok (tree1, eq2) =>
          let book2 := match p.side with
            | Side.Bid => { book1 with bids := tree1 }
            | Side.Ask => { book1 with asks := tree1 }
          let aRem1 := sub64 r.asset_qty_remaining asset_qty_to_post
          let qRem1 := sub64 r.quote_qty_remaining
            (fp32_mul asset_qty_to_post p.limit_price)
          .ok (⟨some new_leaf_order_id, sub64 p.max_asset_qty aRem1,
                sub64 p.max_quote_qty qRem1⟩, book2, eq2)

/-- Outcome of the reward/consume fragment of
`processor/consume_events.rs` (lines 85-105).  `errReturn e` is an
`Err(e)` value propagated to the caller; `panicked e` is a Rust
`unwrap()` on `Err(e)`, which aborts without returning the error. -/
inductive ConsumeOutcome
  | ok (reward fee_budget1 head1 count1 : Nat)
  | errReturn (e : AoError)
  | panicked (e : AoError)
deriving DecidableEq, Repr

/-- Rust `u64::checked_div`. -/
def checkedDiv (a b : Nat) : Option Nat :=
  if b = 0 then none else some (a / b)

/-- The reward-proration and queue-advance fragment of
`consume_events::process` (`consume_events.rs` lines 85-105).  Inputs
are the market's `fee_budget`, the queue header's `count` and `head`,
and the requested `number_of_entries_to_consume`.  The head advance
(`pop_n`, from `state.rs` which is not in the provided sources) is
modelled from the spec §4.3: advance `head` by `min(k, count)` records
and decrement `count` accordingly. -/
def consumeEventsProcess (fee_budget count head n : Nat) : ConsumeOutcome :=
  let capped := min count n
  match checkedDiv (mul64 fee_budget capped) count with
  | none => .panicked .NoOperations
  | some reward =>
    let popped := min n count
    .ok reward (sub64 fee_budget reward) (head + popped) (count - popped)

/-- Little-endian byte encoding of a `u64` (borsh integer layout). -/
def u64LE (n : Nat) : List Nat :=
  (List.range 8).map (fun i => n / 256 ^ i % 256)

/-- Little-endian byte encoding of a `u128` (borsh integer layout). -/
def u128LE (n : Nat) : List Nat :=
  (List.range 16).map (fun i => n / 256 ^ i % 256)

/-- Borsh serialization of `OrderSummary` as derived in
`orderbook.rs` lines 11-25: fields in declaration order;
`Option<u128>` as a one-byte discriminant (0 = None, 1 = Some)
followed by the 16-byte payload only in the `Some` case. -/
def serializeOrderSummary (s : OrderSummary) : List Nat :=
  (match s.posted_order_id with
   | none => [0]
   | some id => 1 :: u128LE (id % 2 ^ 128))
  ++ u64LE (s.total_asset_qty % U64) ++ u64LE (s.total_quote_qty % U64)

/-! ### Arithmetic helper lemmas -/

lemma U64_pos : 0 < U64 := by
  unfold U64
  exact Nat.pos_pow_of_pos 64 (by norm_num)

lemma sub64_eq_sub {a b : Nat} (hb : b ≤ a) (ha : a < U64) :
    sub64 a b = a - b := by
  unfold sub64
  rw [Nat.mod_eq_of_lt ha, Nat.mod_eq_of_lt (lt_of_le_of_lt hb ha),
    Nat.add_sub_assoc hb, Nat.add_mod_left,
    Nat.mod_eq_of_lt (lt_of_le_of_lt (Nat.sub_le a b) ha)]

lemma sub64_zero {a : Nat} (ha : a < U64) : sub64 a 0 = a := by
  rw [sub64_eq_sub (Nat.zero_le a) ha, Nat.sub_zero]

lemma sub64_self (a : Nat) : sub64 a a = 0 := by
  unfold sub64
  rw [Nat.add_sub_cancel, Nat.mod_self]

lemma sub64_lt (a b : Nat) : sub64 a b < U64 :=
  Nat.mod_lt _ U64_pos

lemma sub64_le {a b : Nat} (hb : b ≤ a) (ha : a < U64) : sub64 a b ≤ a := by
  rw [sub64_eq_sub hb ha]
  exact Nat.sub_le a b

/-- The key fp32 inequality: any quantity at most `fp32_div q p`
converts back, through `fp32_mul` at the same price, to at most `q`. -/
lemma fp32_mul_le_of_le_div {q p x : Nat} (hp : 0 < p)
    (hx : x ≤ fp32_div q p) : fp32_mul x p ≤ q := by
  have h1 : x ≤ q * 2 ^ 32 / p := by
    refine le_trans hx ?_
    unfold fp32_div
    exact Nat.mod_le _ _
  have h2 : x * p ≤ q * 2 ^ 32 := (Nat.le_div_iff_mul_le hp).1 h1
  calc fp32_mul x p ≤ x * p / 2 ^ 32 := by
        unfold fp32_mul
        exact Nat.mod_le _ _
    _ ≤ q * 2 ^ 32 / 2 ^ 32 := Nat.div_le_div_right h2
    _ = q := Nat.mul_div_cancel q (by norm_num)

/-! ### Matching-loop invariants -/

/-- Through the matching loop both budgets only decrease: every
decrement is covered, the quote one by `fp32_mul_le_of_le_div`, so the
wrapping subtractions never actually wrap. -/
lemma matchLoop_remaining_le (p : Params) :
    ∀ (fuel : Nat) (crossed : Bool) (ml a q : Nat) (opp : Slab)
      (eq : EventQueue) (r : LoopRes),
      a < U64 → q < U64 →
      matchLoop p fuel crossed ml a q opp eq = Except.ok r →
      r.asset_qty_remaining ≤ a ∧ r.quote_qty_remaining ≤ q := by
  intro fuel
  induction fuel with
  | zero =>
    intro crossed ml a q opp eq r _ _ h
    exact absurd h (by simp [matchLoop])
  | succ f ih =>
    intro crossed ml a q opp eq r ha hq h
    simp only [matchLoop] at h
    split at h
    · cases h
      exact ⟨le_refl _, le_refl _⟩
    · split at h
      · cases h
        exact ⟨le_refl _, le_refl _⟩
      · rename_i best hbbo
        split at h
        · cases h
          exact ⟨le_refl _, le_refl _⟩
        · split at h
          · exact absurd h (by simp)
          · rename_i htp
            split at h
            · cases h
              exact ⟨le_refl _, le_refl _⟩
            · split at h
              · split at h
                · split at h
                  · exact absurd h (by simp)
                  · split at h
                    · split at h
                      · exact absurd h (by simp)
                      · exact ih _ _ _ _ _ _ _ ha hq h
                    · exact ih _ _ _ _ _ _ _ ha hq h
                · exact absurd h (by simp)
                · exact absurd h (by simp)
              · split at h
                · exact absurd h (by simp)
                · have hA : min (min best.asset_quantity a) (fp32_div q best.price) ≤ a :=
                    le_trans (Nat.min_le_left _ _) (Nat.min_le_right _ _)
                  have hQ : fp32_mul
                      (min (min best.asset_quantity a) (fp32_div q best.price))
                      best.price ≤ q :=
                    fp32_mul_le_of_le_div (Nat.pos_of_ne_zero htp)
                      (Nat.min_le_right _ _)
                  split at h
                  · split at h
                    · exact absurd h (by simp)
                    · obtain ⟨h1, h2⟩ := ih _ _ _ _ _ _ _ (sub64_lt _ _) (sub64_lt _ _) h
                      exact ⟨le_trans h1 (sub64_le hA ha), le_trans h2 (sub64_le hQ hq)⟩
                  · obtain ⟨h1, h2⟩ := ih _ _ _ _ _ _ _ (sub64_lt _ _) (sub64_lt _ _) h
                    exact ⟨le_trans h1 (sub64_le hA ha), le_trans h2 (sub64_le hQ hq)⟩

/-- The matching loop can fail, but never with `SlabOutOfSpace`: its
only error exits are fuel exhaustion, division by zero, a panic, a
full event queue, and `WouldSelfTrade`. -/
lemma matchLoop_ne_slabOutOfSpace (p : Params) :
    ∀ (fuel : Nat) (crossed : Bool) (ml a q : Nat) (opp : Slab)
      (eq : EventQueue),
      matchLoop p fuel crossed ml a q opp eq ≠
        Except.error (ExecErr.ao AoError.SlabOutOfSpace) := by
  intro fuel
  induction fuel with
  | zero =>
    intro crossed ml a q opp eq h
    simp [matchLoop] at h
  | succ f ih =>
    intro crossed ml a q opp eq h
    simp only [matchLoop] at h
    split at h
    · exact absurd h (by simp)
    · split at h
      · exact absurd h (by simp)
      · split at h
        · exact absurd h (by simp)
        · split at h
          · exact absurd h (by simp)
          · split at h
            · exact absurd h (by simp)
            · split at h
              · split at h
                · split at h
                  · exact absurd h (by simp)
                  · split at h
                    · split at h
                      · exact absurd h (by simp)
                      · exact ih _ _ _ _ _ _ h
                    · exact ih _ _ _ _ _ _ h
                · exact absurd h (by simp)
                · exact absurd h (by simp)
              · split at h
                · exact absurd h (by simp)
                · split at h
                  · split at h
                    · exact absurd h (by simp)
                    · exact ih _ _ _ _ _ _ h
                  · exact ih _ _ _ _ _ _ h

/-- `postResting` absorbs `SlabOutOfSpace`: whatever it returns, it is
not that error. -/
lemma postResting_ne_slabOutOfSpace (side : Side) (tree : Slab)
    (new_leaf : LeafNode) (eq : EventQueue) :
    postResting side tree new_leaf eq ≠
      Except.error (ExecErr.ao AoError.SlabOutOfSpace) := by
  intro h
  unfold postResting at h
  split at h
  · exact absurd h (by simp)
  · split at h
    · split at h
      · exact absurd h (by simp)
      · split at h
        · exact absurd h (by simp)
        · split at h
          · exact absurd h (by simp)
          · exact absurd h (by simp)
    · exact absurd h (by simp)

/-- `new_order` never surfaces `SlabOutOfSpace` to its caller. -/
lemma new_order_ne_slabOutOfSpace (p : Params) (book : OrderBookState)
    (eq : EventQueue) :
    new_order p book eq ≠
      Except.error (ExecErr.ao AoError.SlabOutOfSpace) := by
  intro h
  cases hm : matchLoop p (loopFuel p (book.get_tree p.side.opposite)) true
      p.match_limit p.max_asset_qty p.max_quote_qty
      (book.get_tree p.side.opposite) eq with
  | error e =>
    simp only [new_order, hm] at h
    cases h
    exact matchLoop_ne_slabOutOfSpace p _ _ _ _ _ _ _ hm
  | ok r =>
    simp only [new_order, hm] at h
    split at h
    · exact absurd h (by simp)
    · split at h
      · exact absurd h (by simp)
      · split at h
        · rename_i e hpr
          cases h
          exact postResting_ne_slabOutOfSpace _ _ _ _ hpr
        · exact absurd h (by simp)

deriving instance DecidableEq for Except

/-! ### Result extractors (used to state concrete facts) -/

/-- Summary component of a successful `new_order` call. -/
def okSummary :
    Except ExecErr (OrderSummary × OrderBookState × EventQueue) →
      Option OrderSummary
  | .ok (s, _, _) => some s
  | _ => none

/-- Event list of the queue after a successful `new_order` call. -/
def okEvents :
    Except ExecErr (OrderSummary × OrderBookState × EventQueue) →
      Option (List Event)
  | .ok (_, _, q) => some q.events
  | _ => none

/-! ### Claim C1 -/

/-- Claim C1 (amended): for every `new_order` call that returns `Ok`,
`total_asset_qty ≤ max_asset_qty`; and `total_quote_qty ≤
max_quote_qty` additionally holds whenever the incoming side is `Bid`
or the call posted no resting leaf.  (The unamended claim fails on an
Ask that posts a residual whose quote value exceeds the remaining
quote budget: the Ask posting path is not quote-capped, see the
counterexample.) -/
theorem claim_C1_total_qty_bounds
    (p : Params) (book : OrderBookState) (eq : EventQueue)
    (summary : OrderSummary) (book1 : OrderBookState) (eq1 : EventQueue)
    (hA : p.max_asset_qty < U64) (hQ : p.max_quote_qty < U64)
    (hok : new_order p book eq = Except.ok (summary, book1, eq1)) :
    summary.total_asset_qty ≤ p.max_asset_qty
    ∧ ((p.side = Side.Bid ∨ summary.posted_order_id = none) →
        summary.total_quote_qty ≤ p.max_quote_qty) := by
  cases hm : matchLoop p (loopFuel p (book.get_tree p.side.opposite)) true
      p.match_limit p.max_asset_qty p.max_quote_qty
      (book.get_tree p.side.opposite) eq with
  | error e =>
    simp only [new_order, hm] at hok
    exact absurd hok (by simp)
  | ok r =>
    obtain ⟨hra, hrq⟩ :=
      matchLoop_remaining_le p _ _ _ _ _ _ _ _ hA hQ hm
    have hraU : r.asset_qty_remaining < U64 := lt_of_le_of_lt hra hA
    have hrqU : r.quote_qty_remaining < U64 := lt_of_le_of_lt hrq hQ
    simp only [new_order, hm] at hok
    split at hok
    · simp only [Except.ok.injEq, Prod.mk.injEq] at hok
      obtain ⟨hs, -, -⟩ := hok
      subst hs
      refine ⟨?_, fun _ => ?_⟩
      · rw [sub64_eq_sub hra hA]
        exact Nat.sub_le _ _
      · rw [sub64_eq_sub hrq hQ]
        exact Nat.sub_le _ _
    · split at hok
      · exact absurd hok (by simp)
      · rename_i atp heq
        split at hok
        · exact absurd hok (by simp)
        · rename_i pr hpr
          obtain ⟨tree1, eq2⟩ := pr
          simp only [Except.ok.injEq, Prod.mk.injEq] at hok
          obtain ⟨hs, -, -⟩ := hok
          subst hs
          cases hps : p.side with
          | Bid =>
            rw [hps] at heq
            cases hd : fp32_div? r.quote_qty_remaining p.limit_price with
            | none =>
              rw [hd] at heq
              exact absurd heq (by simp)
            | some d =>
              rw [hd] at heq
              simp only [Option.map_some', Option.some.injEq] at heq
              have hlp : p.limit_price ≠ 0 := by
                intro h0
                rw [fp32_div?, if_pos h0] at hd
                exact absurd hd (by simp)
              have hdval : d = fp32_div r.quote_qty_remaining p.limit_price := by
                rw [fp32_div?, if_neg hlp] at hd
                exact (Option.some_inj.mp hd).symm
              have hatp_a : atp ≤ r.asset_qty_remaining := by
                rw [← heq]
                exact Nat.min_le_right _ _
              have hatp_d : atp ≤ fp32_div r.quote_qty_remaining p.limit_price := by
                rw [← hdval, ← heq]
                exact Nat.min_le_left _ _
              have hmul : fp32_mul atp p.limit_price ≤ r.quote_qty_remaining :=
                fp32_mul_le_of_le_div (Nat.pos_of_ne_zero hlp) hatp_d
              have h1 : sub64 r.asset_qty_remaining atp ≤ p.max_asset_qty :=
                le_trans (sub64_le hatp_a hraU) hra
              have h2 : sub64 r.quote_qty_remaining
                  (fp32_mul atp p.limit_price) ≤ p.max_quote_qty :=
                le_trans (sub64_le hmul hrqU) hrq
              refine ⟨?_, fun _ => ?_⟩
              · rw [sub64_eq_sub h1 hA]
                exact Nat.sub_le _ _
              · rw [sub64_eq_sub h2 hQ]
                exact Nat.sub_le _ _
          | Ask =>
            rw [hps] at heq
            simp only [Option.some.injEq] at heq
            refine ⟨?_, fun hcase => ?_⟩
            · have h1 : sub64 r.asset_qty_remaining atp ≤ p.max_asset_qty := by
                rw [heq, sub64_self]
                exact Nat.zero_le _
              rw [sub64_eq_sub h1 hA]
              exact Nat.sub_le _ _
            · rcases hcase with hside | hnone
              · exact absurd hside (by simp)
              · exact absurd hnone (by simp)

/-- Concrete input for the C1 counterexample and C2 witness: an Ask
for 10 units at price 1.0 (fp32 `2 ^ 32`) with a quote budget of only
5, posting into an empty book. -/
def askPostParams : Params :=
  ⟨10, 5, Side.Ask, 2 ^ 32, 0, false, true, SelfTradeBehavior.DecrementTake, 1⟩

/-- An empty book with room for ten leaves per side. -/
def emptyBook : OrderBookState := ⟨⟨[], 10⟩, ⟨[], 10⟩⟩

/-- An empty event queue with room for ten events. -/
def emptyQueue : EventQueue := ⟨[], 10, 0⟩

/-- Claim C1 counterexample: the Ask of `askPostParams` returns `Ok`
with `total_quote_qty = 10 > 5 = max_quote_qty`: the posting step
subtracts `fp32_mul(10, 2^32) = 10` from the remaining quote budget 5,
wrapping below zero, and the final total wraps back to 10. -/
theorem claim_C1_counterexample :
    okSummary (new_order askPostParams emptyBook emptyQueue) =
      some ⟨some (2 ^ 96 + 2 ^ 64 - 1), 10, 10⟩
    ∧ askPostParams.max_quote_qty = 5
    ∧ ¬ (10 ≤ 5) := by
  refine ⟨by decide, rfl, by decide⟩

/-- Parameters of the C1 witness: a plain Bid that posts. -/
def bidPostParams : Params :=
  ⟨4, 1000, Side.Bid, 2 ^ 32, 0, false, true, SelfTradeBehavior.DecrementTake, 1⟩

/-- Claim C1 witness: the amended theorem applied to a concrete Bid
call that returns `Ok`. -/
theorem claim_C1_total_qty_bounds_witness :
    (OrderSummary.mk (some (2 ^ 96)) 4 4).total_asset_qty ≤
      bidPostParams.max_asset_qty
    ∧ ((bidPostParams.side = Side.Bid ∨
        (OrderSummary.mk (some (2 ^ 96)) 4 4).posted_order_id = none) →
        (OrderSummary.mk (some (2 ^ 96)) 4 4).total_quote_qty ≤
          bidPostParams.max_quote_qty) :=
  claim_C1_total_qty_bounds bidPostParams emptyBook emptyQueue
    ⟨some (2 ^ 96), 4, 4⟩
    ⟨⟨[⟨2 ^ 96, 4, 0⟩], 10⟩, ⟨[], 10⟩⟩ ⟨[], 10, 1⟩
    (by decide) (by decide) (by decide)

/-! ### Claim C5 -/

/-- Claim C5 (amended): when the event queue header's `count` is 0,
the consume-events reward fragment does guard the division through
`checked_div`, but then `unwrap`s the `Err(NoOperations)` produced by
`ok_or`: the call aborts by panicking, and the `NoOperations` error is
never returned to the caller. -/
theorem claim_C5_no_operations_panics (fee_budget head n : Nat) :
    consumeEventsProcess fee_budget 0 head n =
      ConsumeOutcome.panicked AoError.NoOperations := rfl

/-- Claim C5 counterexample: at `count = 0` the outcome is a panic,
not a returned `Err(NoOperations)`. -/
theorem claim_C5_counterexample :
    consumeEventsProcess 100 0 4 7 = ConsumeOutcome.panicked AoError.NoOperations
    ∧ consumeEventsProcess 100 0 4 7 ≠ ConsumeOutcome.errReturn AoError.NoOperations := by
  exact ⟨rfl, by decide⟩

/-! ### Claim C6 -/

/-- Claim C6 (amended): serializing an `OrderSummary` whose
`posted_order_id` is `Some` produces exactly 33 bytes — discriminant 1
at offset 0, the little-endian `u128` at offsets 1..16, the two
little-endian `u64` totals at offsets 17 and 25.  When
`posted_order_id` is `None`, borsh emits only the 1-byte discriminant
0 with no 16-byte padding, so the output is 17 bytes with the totals
at offsets 1 and 9; `ORDER_SUMMARY_SIZE = 33` is the maximum size, not
the size of every serialization. -/
theorem claim_C6_order_summary_layout (id a q : Nat) :
    serializeOrderSummary ⟨some id, a, q⟩
      = 1 :: (u128LE (id % 2 ^ 128) ++ (u64LE (a % U64) ++ u64LE (q % U64)))
    ∧ (serializeOrderSummary ⟨some id, a, q⟩).length = ORDER_SUMMARY_SIZE
    ∧ serializeOrderSummary ⟨none, a, q⟩
      = 0 :: (u64LE (a % U64) ++ u64LE (q % U64))
    ∧ (serializeOrderSummary ⟨none, a, q⟩).length = 17 := by
  refine ⟨rfl, ?_, rfl, ?_⟩ <;>
    simp [serializeOrderSummary, u64LE, u128LE, ORDER_SUMMARY_SIZE]

/-- Claim C6 counterexample: a summary with `posted_order_id = None`
serializes to 17 bytes, not 33. -/
theorem claim_C6_counterexample :
    (serializeOrderSummary ⟨none, 5, 9⟩).length = 17 ∧ (17 : Nat) ≠ 33 := by
  exact ⟨by decide, by decide⟩

/-! ### Claim C9 -/

/-- The resting ask of the C9 scenario: price `100 * 2^32` (Q32.32 for
100), quantity 10, owner tag 7; its key carries the Ask sequence mask. -/
def c9Ask : LeafNode := ⟨100 * 2 ^ 32 * 2 ^ 64 + (2 ^ 64 - 1), 10, 7⟩

/-- The C9 book: that single resting ask. -/
def c9Book : OrderBookState := ⟨⟨[], 10⟩, ⟨[c9Ask], 10⟩⟩

/-- The C9 incoming Bid: its limit price `50 * 2^32` is strictly below
the resting ask's price, with ample budgets. -/
def c9Params : Params :=
  ⟨4, 1000000000, Side.Bid, 50 * 2 ^ 32, 3, false, false,
    SelfTradeBehavior.DecrementTake, 10⟩

/-- Claim C9: the matching loop never re-checks the `crossed` flag, so
a Bid whose limit is strictly below the best ask still trades: the run
emits one Fill whose `quote_size` is `fp32_mul(4, ask price)` — the
ask's price, worse than the taker's limit. -/
theorem claim_C9_fills_through_the_limit :
    okEvents (new_order c9Params c9Book ⟨[], 10, 0⟩) =
      some [Event.Fill Side.Bid 7 3 c9Ask.order_id (fp32_mul 4 c9Ask.price) 4]
    ∧ c9Params.limit_price < c9Ask.price
    ∧ c9Params.post_only = false := by
  refine ⟨by decide, by decide, rfl⟩

/-! ### Claim C10 -/

/-- The C10 call: a Bid with `limit_price = 0`, `post_only = false`,
`post_allowed = true`, `match_limit = 1`, against empty ask and bid
slabs. -/
def c10Params : Params :=
  ⟨10, 100, Side.Bid, 0, 3, false, true, SelfTradeBehavior.DecrementTake, 1⟩

/-- Claim C10: `fp32_div` has no case for a zero divisor — for every
numerator the division panics — and `new_order` reaches that case:
with an empty opposite slab the loop exits uncrossed, posting is
allowed, and the Bid resting-quantity computation evaluates
`fp32_div(quote_qty_remaining, 0)`. -/
theorem claim_C10_div_by_zero_reachable :
    (∀ a : Nat, fp32_div? a 0 = none)
    ∧ new_order c10Params ⟨⟨[], 10⟩, ⟨[], 10⟩⟩ ⟨[], 10, 0⟩ =
        Except.error ExecErr.divByZero
    ∧ c10Params.match_limit ≠ 0
    ∧ c10Params.post_only = false
    ∧ c10Params.post_allowed = true
    ∧ c10Params.limit_price = 0 := by
  refine ⟨fun a => rfl, by decide, by decide, rfl, rfl, rfl⟩

/-! ### Claim C7 -/

/-- Claim C7: with `match_limit = 0` the loop breaks immediately with
`crossed` still at its initial value `true`, so regardless of the
book, the flags and the queue, nothing is matched, nothing is posted,
no event is pushed, and the call returns `Ok` with `posted_order_id =
None` and zero totals; book and queue are returned unchanged. -/
theorem claim_C7_match_limit_zero (p : Params) (book : OrderBookState)
    (eq : EventQueue) :
    new_order { p with match_limit := 0 } book eq =
      Except.ok (⟨none, 0, 0⟩, book, eq) := by
  cases hps : p.side <;>
    simp [new_order, loopFuel, matchLoop, sub64_self, Side.opposite,
      OrderBookState.get_tree, hps]

/-! ### Claim C8 -/

/-- Claim C8: for all `q`, `p > 0` and `x ≤ fp32_div q p` we have
`fp32_mul x p ≤ q`; consequently the matching loop's quote decrement
never underflows — stated as: from any entry state of the loop
(universally quantified, hence at every iteration) with in-range
budgets, a successful loop exit leaves both remainders no larger than
they were, i.e. every `quote_qty_remaining - quote_maker_qty`
decrement was covered. -/
theorem claim_C8_fp32_div_mul_no_underflow :
    (∀ q p x : Nat, 0 < p → x ≤ fp32_div q p → fp32_mul x p ≤ q)
    ∧ (∀ (pr : Params) (fuel : Nat) (crossed : Bool) (ml a q : Nat)
        (opp : Slab) (eq : EventQueue) (r : LoopRes),
        a < U64 → q < U64 →
        matchLoop pr fuel crossed ml a q opp eq = Except.ok r →
        r.asset_qty_remaining ≤ a ∧ r.quote_qty_remaining ≤ q) :=
  ⟨fun _ _ _ hp hx => fp32_mul_le_of_le_div hp hx,
   fun pr fuel crossed ml a q opp eq r ha hq h =>
     matchLoop_remaining_le pr fuel crossed ml a q opp eq r ha hq h⟩

/-- The resting ask of the C8 witness run. -/
def c8Ask : LeafNode := ⟨100 * 2 ^ 32 * 2 ^ 64 + (2 ^ 64 - 1), 10, 7⟩

/-- The C8 witness taker: a Bid crossing `c8Ask`. -/
def c8Params : Params :=
  ⟨4, 1000000000, Side.Bid, 100 * 2 ^ 32, 3, false, false,
    SelfTradeBehavior.DecrementTake, 10⟩

/-- Claim C8 witness: both conjuncts applied at concrete inputs — the
pure inequality at `q = 400`, `p = 2^32`, `x = 3`, and the loop bound
on a concrete run that fills 4 units at price 100 and consumes 400
quote units out of a budget of 1000000000. -/
theorem claim_C8_fp32_div_mul_no_underflow_witness :
    fp32_mul 3 (2 ^ 32) ≤ 400
    ∧ ((0 : Nat) ≤ 4 ∧ (999999600 : Nat) ≤ 1000000000) :=
  ⟨claim_C8_fp32_div_mul_no_underflow.1 400 (2 ^ 32) 3 (by decide) (by decide),
   claim_C8_fp32_div_mul_no_underflow.2 c8Params 12 true 10 4 1000000000
     ⟨[c8Ask], 10⟩ ⟨[], 10, 0⟩
     ⟨true, 0, 999999600, ⟨[⟨c8Ask.order_id, 6, 7⟩], 10⟩,
       ⟨[Event.Fill Side.Bid 7 3 c8Ask.order_id 400 4], 10, 0⟩⟩
     (by decide) (by decide) (by decide)⟩

/-! ### Claim C3 -/

/-- Claim C3: one iteration of the matching loop in the
`CancelProvide` self-trade case — incoming `callback_info` equal to the
best opposite leaf's, `post_only = false`, nonzero computed trade
quantity, queue push succeeding — pushes exactly one `Out` event with
`side = opposite(side)`, the leaf's `order_id`, `callback_info` and
its entire `asset_quantity`; removes that leaf from the opposite slab;
and continues with `match_limit`, `asset_qty_remaining` and
`quote_qty_remaining` all unchanged. -/
theorem claim_C3_cancel_provide_step
    (p : Params) (fuel ml aRem qRem : Nat) (opp : Slab) (eq : EventQueue)
    (crossed : Bool) (best : LeafNode) (ls1 : List LeafNode) (eq1 : EventQueue)
    (hml : ml ≠ 0)
    (hbbo : findBBO p.side.opposite opp = some best)
    (hpo : p.post_only = false)
    (hstb : p.self_trade_behavior = SelfTradeBehavior.CancelProvide)
    (hcb : p.callback_info = best.callback_info)
    (htp : best.price ≠ 0)
    (hqty : min (min best.asset_quantity aRem) (fp32_div qRem best.price) ≠ 0)
    (hpush : eq.pushBack (Event.Out p.side.opposite best.order_id
        best.asset_quantity best.callback_info) = Except.ok eq1)
    (hrm : removeByKey? opp.leaves best.order_id = some ls1) :
    matchLoop p (fuel + 1) crossed ml aRem qRem opp eq =
      matchLoop p fuel (computeCrossed p.side p.limit_price best.price) ml
        aRem qRem { opp with leaves := ls1 } eq1 := by
  simp only [matchLoop, hbbo, hpo, hstb, hcb, hpush, hrm, hml, htp, hqty,
    sub64_self, if_neg, if_false, ne_eq, not_false_eq_true, and_self,
    if_true, Bool.false_eq_true, ite_false, reduceCtorEq]

/-- The self-owned resting ask of the C3 witness. -/
def c3Ask : LeafNode := ⟨100 * 2 ^ 32 * 2 ^ 64 + (2 ^ 64 - 1), 7, 3⟩

/-- The C3 witness taker: a Bid from the same owner (tag 3) with
`CancelProvide`. -/
def c3Params : Params :=
  ⟨4, 1000000000, Side.Bid, 100 * 2 ^ 32, 3, false, false,
    SelfTradeBehavior.CancelProvide, 10⟩

/-- Claim C3 witness: the step equation at a concrete state — the
iteration cancels the resting self order, pushing its `Out` event and
removing it, with budgets and `match_limit` untouched. -/
theorem claim_C3_cancel_provide_step_witness :
    matchLoop c3Params 12 true 10 4 1000000000 ⟨[c3Ask], 10⟩ ⟨[], 10, 0⟩ =
      matchLoop c3Params 11
        (computeCrossed c3Params.side c3Params.limit_price c3Ask.price) 10
        4 1000000000 ⟨[], 10⟩
        ⟨[Event.Out Side.Ask c3Ask.order_id 7 3], 10, 0⟩ :=
  claim_C3_cancel_provide_step c3Params 11 10 4 1000000000 ⟨[c3Ask], 10⟩
    ⟨[], 10, 0⟩ true c3Ask [] ⟨[Event.Out Side.Ask c3Ask.order_id 7 3], 10, 0⟩
    (by decide) (by decide) rfl rfl (by decide) (by decide) (by decide)
    (by decide) (by decide)

/-- A successful `postResting` leaves the new leaf in the returned
tree (both on the direct path and after an eviction retry). -/
lemma postResting_mem (side : Side) (tree : Slab) (new_leaf : LeafNode)
    (eq : EventQueue) (tree1 : Slab) (eq2 : EventQueue)
    (h : postResting side tree new_leaf eq = Except.ok (tree1, eq2)) :
    new_leaf ∈ tree1.leaves := by
  unfold postResting at h
  split at h
  · rename_i t hins
    simp only [Except.ok.injEq, Prod.mk.injEq] at h
    obtain ⟨h1, -⟩ := h
    subst h1
    unfold Slab.insertLeaf at hins
    split at hins
    · exact absurd hins (by simp)
    · simp only [Except.ok.injEq] at hins
      subst hins
      exact List.mem_cons_self _ _
  · rename_i e hins
    split at h
    · split at h
      · exact absurd h (by simp)
      · rename_i pr hrm
        split at h
        · exact absurd h (by simp)
        · rename_i eq3 hpb
          split at h
          · rename_i t2 hins2
            simp only [Except.ok.injEq, Prod.mk.injEq] at h
            obtain ⟨h1, -⟩ := h
            subst h1
            unfold Slab.insertLeaf at hins2
            split at hins2
            · exact absurd hins2 (by simp)
            · simp only [Except.ok.injEq] at hins2
              subst hins2
              exact List.mem_cons_self _ _
          · exact absurd h (by simp)
    · exact absurd h (by simp)

/-! ### Claim C2 -/

/-- Claim C2: given the matching loop's exit state, a successful
`new_order` posts a resting order if and only if `crossed = false` and
`post_allowed = true`; exactly then `posted_order_id` is `Some` of the
freshly generated id (from the post-loop queue's `seq_num`), otherwise
it is `None`; and the posted leaf's quantity is
`min(fp32_div(quote_qty_remaining, limit_price), asset_qty_remaining)`
for a Bid and `asset_qty_remaining` for an Ask. -/
theorem claim_C2_resting_decision
    (p : Params) (book : OrderBookState) (eq : EventQueue) (r : LoopRes)
    (summary : OrderSummary) (book1 : OrderBookState) (eq1 : EventQueue)
    (hloop : matchLoop p (loopFuel p (book.get_tree p.side.opposite)) true
        p.match_limit p.max_asset_qty p.max_quote_qty
        (book.get_tree p.side.opposite) eq = Except.ok r)
    (hok : new_order p book eq = Except.ok (summary, book1, eq1)) :
    (summary.posted_order_id.isSome = true ↔
      (r.crossed = false ∧ p.post_allowed = true))
    ∧ (r.crossed = false → p.post_allowed = true →
        summary.posted_order_id =
          some (genOrderId p.limit_price p.side r.eq.seq_num)
        ∧ LeafNode.mk (genOrderId p.limit_price p.side r.eq.seq_num)
            (match p.side with
             | Side.Bid => min (fp32_div r.quote_qty_remaining p.limit_price)
                 r.asset_qty_remaining
             | Side.Ask => r.asset_qty_remaining)
            p.callback_info ∈ (book1.get_tree p.side).leaves) := by
  simp only [new_order, hloop] at hok
  split at hok
  · rename_i hc
    simp only [Except.ok.injEq, Prod.mk.injEq] at hok
    obtain ⟨hs, -, -⟩ := hok
    subst hs
    constructor
    · constructor
      · intro hf
        exact absurd hf (by simp)
      · rintro ⟨hcr, hpa⟩
        rw [hcr, hpa] at hc
        simp at hc
    · intro hcr hpa
      rw [hcr, hpa] at hc
      simp at hc
  · rename_i hc
    have hcr : r.crossed = false := by
      cases h2 : r.crossed
      · rfl
      · rw [h2] at hc
        simp at hc
    have hpa : p.post_allowed = true := by
      cases h2 : p.post_allowed
      · rw [h2] at hc
        simp at hc
      · rfl
    split at hok
    · exact absurd hok (by simp)
    · rename_i atp heq
      split at hok
      · exact absurd hok (by simp)
      · rename_i pr hpr
        obtain ⟨tree1, eq2⟩ := pr
        simp only [Except.ok.injEq, Prod.mk.injEq] at hok
        obtain ⟨hs, hb, -⟩ := hok
        subst hs
        subst hb
        have hmem := postResting_mem _ _ _ _ _ _ hpr
        refine ⟨by simp [hcr, hpa], fun _ _ => ⟨rfl, ?_⟩⟩
        cases hps : p.side with
        | Bid =>
          rw [hps] at heq
          cases hd : fp32_div? r.quote_qty_remaining p.limit_price with
          | none =>
            rw [hd] at heq
            exact absurd heq (by simp)
          | some d =>
            rw [hd] at heq
            simp only [Option.map_some', Option.some.injEq] at heq
            have hlp : p.limit_price ≠ 0 := by
              intro h0
              rw [fp32_div?, if_pos h0] at hd
              exact absurd hd (by simp)
            have hdv : d = fp32_div r.quote_qty_remaining p.limit_price := by
              rw [fp32_div?, if_neg hlp] at hd
              exact (Option.some_inj.mp hd).symm
            simp only [hps, OrderBookState.get_tree] at hmem ⊢
            rw [← hdv, heq]
            exact hmem
        | Ask =>
          rw [hps] at heq
          simp only [Option.some.injEq] at heq
          simp only [hps, OrderBookState.get_tree] at hmem ⊢
          rw [heq]
          exact hmem

/-- Claim C2 witness: the decision instantiated on the concrete Ask of
`askPostParams`, which exits the loop uncrossed with `post_allowed`,
posts its full residual of 10 units, and returns its id. -/
theorem claim_C2_resting_decision_witness :
    ((OrderSummary.mk (some (2 ^ 96 + 2 ^ 64 - 1)) 10 10).posted_order_id.isSome = true ↔
      ((false : Bool) = false ∧ askPostParams.post_allowed = true))
    ∧ ((false : Bool) = false → askPostParams.post_allowed = true →
        (OrderSummary.mk (some (2 ^ 96 + 2 ^ 64 - 1)) 10 10).posted_order_id =
          some (genOrderId askPostParams.limit_price askPostParams.side 0)
        ∧ LeafNode.mk (genOrderId askPostParams.limit_price askPostParams.side 0)
            (match askPostParams.side with
             | Side.Bid => min (fp32_div 5 askPostParams.limit_price) 10
             | Side.Ask => (10 : Nat))
            askPostParams.callback_info ∈
          ((OrderBookState.mk ⟨[], 10⟩
              ⟨[⟨2 ^ 96 + 2 ^ 64 - 1, 10, 0⟩], 10⟩).get_tree
            askPostParams.side).leaves) :=
  claim_C2_resting_decision askPostParams emptyBook emptyQueue
    ⟨false, 10, 5, ⟨[], 10⟩, ⟨[], 10, 0⟩⟩
    ⟨some (2 ^ 96 + 2 ^ 64 - 1), 10, 10⟩
    ⟨⟨[], 10⟩, ⟨[⟨2 ^ 96 + 2 ^ 64 - 1, 10, 0⟩], 10⟩⟩ ⟨[], 10, 1⟩
    (by decide) (by decide)

/-! ### Claim C4 -/

/-- Claim C4: `SlabOutOfSpace` never escapes — neither `postResting`
nor `new_order` ever returns it — and when the taker-side tree is full
at posting time, a successful post works by evicting the least
aggressive same-side order (`remove_min` for a Bid tree, `remove_max`
for an Ask tree), pushing exactly one `Out` event for the evicted
leaf, and retrying the insertion on the reduced tree. -/
theorem claim_C4_eviction_absorbs_slab_out_of_space
    (side : Side) (tree : Slab) (new_leaf : LeafNode) (eq : EventQueue) :
    postResting side tree new_leaf eq ≠
      Except.error (ExecErr.ao AoError.SlabOutOfSpace)
    ∧ (∀ (p : Params) (book : OrderBookState) (eq0 : EventQueue),
        new_order p book eq0 ≠
          Except.error (ExecErr.ao AoError.SlabOutOfSpace))
    ∧ (∀ (evicted : LeafNode) (rest tree1 : Slab) (eq2 : EventQueue),
        tree.capacity ≤ tree.leaves.length →
        (match side with
         | Side.Bid => tree.removeMin
         | Side.Ask => tree.removeMax) = some (evicted, rest) →
        postResting side tree new_leaf eq = Except.ok (tree1, eq2) →
        eq2.events = eq.events ++
          [Event.Out Side.Bid evicted.order_id evicted.asset_quantity
            evicted.callback_info]
        ∧ rest.insertLeaf new_leaf = Except.ok tree1) := by
  refine ⟨postResting_ne_slabOutOfSpace side tree new_leaf eq,
    fun p book eq0 => new_order_ne_slabOutOfSpace p book eq0,
    fun evicted rest tree1 eq2 hfull hrm h => ?_⟩
  unfold postResting at h
  split at h
  · rename_i t hins
    unfold Slab.insertLeaf at hins
    rw [if_pos hfull] at hins
    exact absurd hins (by simp)
  · rename_i e hins
    split at h
    · split at h
      · rename_i hnone
        rw [hrm] at hnone
        exact absurd hnone (by simp)
      · rename_i ev2 rest2 hsome
        rw [hrm] at hsome
        simp only [Option.some.injEq, Prod.mk.injEq] at hsome
        obtain ⟨hev, hrest⟩ := hsome
        subst hev
        subst hrest
        split at h
        · exact absurd h (by simp)
        · rename_i eq3 hpb
          split at h
          · rename_i t2 hins2
            simp only [Except.ok.injEq, Prod.mk.injEq] at h
            obtain ⟨h1, h2⟩ := h
            subst h1
            subst h2
            constructor
            · unfold EventQueue.pushBack at hpb
              split at hpb
              · exact absurd hpb (by simp)
              · simp only [Except.ok.injEq] at hpb
                rw [← hpb]
            · exact hins2
          · exact absurd h (by simp)
    · exact absurd h (by simp)

/-- The lone resting bid of the C4 witness, at price 10 — the least
aggressive (and only) order in a bid slab of capacity one. -/
def c4Low : LeafNode := ⟨10 * 2 ^ 32 * 2 ^ 64, 5, 9⟩

/-- Claim C4 witness: the theorem applied at a full capacity-one bid
slab — the insert fails, `remove_min` evicts `c4Low`, exactly its
`Out` event is pushed, the retry succeeds, and no `SlabOutOfSpace`
escapes (also instantiated for a full concrete `new_order` call). -/
theorem claim_C4_eviction_absorbs_slab_out_of_space_witness :
    postResting Side.Bid ⟨[c4Low], 1⟩ ⟨55, 6, 3⟩ ⟨[], 10, 0⟩ ≠
      Except.error (ExecErr.ao AoError.SlabOutOfSpace)
    ∧ new_order askPostParams emptyBook emptyQueue ≠
        Except.error (ExecErr.ao AoError.SlabOutOfSpace)
    ∧ ((EventQueue.mk
          [Event.Out Side.Bid c4Low.order_id c4Low.asset_quantity
            c4Low.callback_info] 10 0).events =
        [Event.Out Side.Bid c4Low.order_id c4Low.asset_quantity
          c4Low.callback_info]
        ∧ Slab.insertLeaf ⟨[], 1⟩ ⟨55, 6, 3⟩ =
            Except.ok ⟨[⟨55, 6, 3⟩], 1⟩) :=
  ⟨(claim_C4_eviction_absorbs_slab_out_of_space Side.Bid ⟨[c4Low], 1⟩
      ⟨55, 6, 3⟩ ⟨[], 10, 0⟩).1,
   (claim_C4_eviction_absorbs_slab_out_of_space Side.Bid ⟨[c4Low], 1⟩
      ⟨55, 6, 3⟩ ⟨[], 10, 0⟩).2.1 askPostParams emptyBook emptyQueue,
   (claim_C4_eviction_absorbs_slab_out_of_space Side.Bid ⟨[c4Low], 1⟩
      ⟨55, 6, 3⟩ ⟨[], 10, 0⟩).2.2 c4Low ⟨[], 1⟩ ⟨[⟨55, 6, 3⟩], 1⟩
      ⟨[Event.Out Side.Bid c4Low.order_id c4Low.asset_quantity
          c4Low.callback_info], 10, 0⟩
      (by decide) (by decide) (by decide)⟩

end AOB
